import Mathlib

/-!
Verification of the Statement Normalizer of the convert-to-freeagent
repository (`src/App.tsx`): the functions `convertStarlingToFreeAgent` and
`convertRevolutToFreeAgent`, which turn parsed bank-statement CSV rows into
FreeAgent three-column records, together with the JavaScript string/number
semantics they rely on (`parseFloat`, `Number.prototype.toFixed(2)`, string
replace/trim, `String.split`).

Modelling conventions:
* a parsed CSV row (`Transaction`, a JS object mapping column names to
  string values) is an association list `Row`; an absent key models a JS
  `undefined` field;
* JS numbers reached by this code are exact decimal values: `parseFloat`
  on a decimal numeral yields sign/mantissa/power-of-ten exactly, and the
  model keeps that exact value (`Dec`), plus the special values `NaN`,
  `Infinity`, `-Infinity` and negative zero which `parseFloat` can also
  produce.  Double rounding of extreme-precision literals is not modelled;
* JS whitespace is modelled at its ASCII core (space, tab, LF, CR, VT, FF);
* thrown-and-caught `Error`s are modelled by `Except String`, matching the
  `FreeAgentTransaction[] | string` result type of the source functions.
-/

namespace ConvertToFreeAgent

/-- A parsed CSV row: column name to raw string value, in column order
(`Transaction` in the source).  A key absent from the list models a field
that is `undefined` in the JS object. -/
abbrev Row := List (String × String)

/-- JS `row[key]`: `none` models `undefined`. -/
def lookupField (row : Row) (key : String) : Option String :=
  List.lookup key row

/-- JS `Object.keys(row)`: the column names in order. -/
def rowKeys (row : Row) : List String :=
  row.map Prod.fst

/-- The output record shape (`FreeAgentTransaction` in the source). -/
structure FreeAgentTransaction where
  Date : String
  Amount : String
  Description : String
deriving DecidableEq

/-- Decidable equality of conversion results, for evaluating the model
at concrete inputs. -/
instance {ε α : Type} [DecidableEq ε] [DecidableEq α] :
    DecidableEq (Except ε α)
  | .error a, .error b =>
    if h : a = b then .isTrue (by rw [h])
    else .isFalse (fun hc => by cases hc; exact h rfl)
  | .error _, .ok _ => .isFalse (fun hc => by cases hc)
  | .ok _, .error _ => .isFalse (fun hc => by cases hc)
  | .ok a, .ok b =>
    if h : a = b then .isTrue (by rw [h])
    else .isFalse (fun hc => by cases hc; exact h rfl)

/-- JS falsiness of an optional string field: `undefined` and `""` are
falsy, every other string is truthy. -/
def falsyStr : Option String → Bool
  | none => true
  | some s => s = ""

/-- The ASCII core of JS whitespace (StrWhiteSpaceChar): space, tab, line
feed, vertical tab, form feed, carriage return. -/
def jsWhitespace (c : Char) : Bool :=
  c = ' ' || c = '\t' || c = '\n' || c = '\x0b' || c = '\x0c' || c = '\r'

/-- The decimal digit character for `d < 10`. -/
def digitChar (d : Nat) : Char :=
  Char.ofNat (48 + d)

/-- Split a character list into its longest leading run of decimal digits
and the remainder. -/
def splitDigits : List Char → List Char × List Char
  | [] => ([], [])
  | c :: cs =>
    if c.isDigit then ((splitDigits cs).1.cons c, (splitDigits cs).2)
    else ([], c :: cs)

/-- The numeric value of a list of decimal digit characters (most
significant first). -/
def digitsVal (ds : List Char) : Nat :=
  ds.foldl (fun a c => a * 10 + (c.toNat - 48)) 0

/-- Decimal digit characters of a natural number, fuelled so that the
recursion is structural (adequate whenever `n < fuel`). -/
def natDigitsGo : Nat → Nat → List Char → List Char
  | 0, _, acc => acc
  | fuel + 1, n, acc =>
    if n < 10 then digitChar n :: acc
    else natDigitsGo fuel (n / 10) (digitChar (n % 10) :: acc)

/-- Decimal digit characters of a natural number, most significant first
(JS integer-to-string). -/
def natDigitsL (n : Nat) : List Char :=
  natDigitsGo (n + 1) n []

/-- JS `str.replace(/\r\n|\n|\r/gm, " ")`: each CRLF pair, lone LF or lone
CR becomes a single space. -/
def collapseNewlines : List Char → List Char
  | [] => []
  | [c] => if c = '\r' || c = '\n' then [' '] else [c]
  | c :: c2 :: rest =>
    if c = '\r' then
      if c2 = '\n' then ' ' :: collapseNewlines rest
      else ' ' :: collapseNewlines (c2 :: rest)
    else if c = '\n' then ' ' :: collapseNewlines (c2 :: rest)
    else c :: collapseNewlines (c2 :: rest)

/-- JS `String.prototype.trim`: strip leading and trailing whitespace. -/
def jsTrim (s : String) : String :=
  ⟨((s.data.dropWhile jsWhitespace).reverse.dropWhile jsWhitespace).reverse⟩

/-- The shared description sanitization of both converters:
`replace(/,/g, "").replace(/"/g, "")`, then newline collapse, then trim. -/
def sanitize (s : String) : String :=
  jsTrim ⟨collapseNewlines ((s.data.filter (· ≠ ',')).filter (· ≠ '"'))⟩

/-- An exact decimal value: `(-1)^neg * mant * 10^exp`.  This represents
the finite JS numbers produced by `parseFloat` on this code's inputs
exactly (sign kept separately so that negative zero stays visible to the
caller that builds a `JSNum`). -/
structure Dec where
  neg : Bool
  mant : Nat
  exp : Int
deriving DecidableEq

/-- The JS numbers this code can observe: `NaN`, the infinities, negative
zero, and finite exact decimal values. -/
inductive JSNum where
  | nan
  | inf
  | negInf
  | negZero
  | finite (d : Dec)
deriving DecidableEq

/-- Whether a character list starts with the literal `Infinity` (the
StrUnsignedDecimalLiteral alternative of `parseFloat`). -/
def isInfChars (l : List Char) : Bool :=
  match l with
  | a :: b :: c :: d :: e :: f :: g :: h :: _ =>
    (a = 'I') && (b = 'n') && (c = 'f') && (d = 'i') && (e = 'n') &&
      (f = 'i') && (g = 't') && (h = 'y')
  | _ => false

/-- Digits of an exponent part: value of the longest leading digit run,
`0` when there is none (then JS does not consume the exponent marker, and
the factor is `10^0`). -/
def expDigits (l : List Char) : Int :=
  let ds := (splitDigits l).1
  if ds.isEmpty then 0 else (digitsVal ds : Int)

/-- Exponent value after the `e`/`E` marker: optional sign then digits. -/
def parseExpAfterE (l : List Char) : Int :=
  match l with
  | [] => 0
  | c :: rest =>
    if c = '+' then expDigits rest
    else if c = '-' then -(expDigits rest)
    else expDigits (c :: rest)

/-- Exponent part of a decimal literal: `e` or `E` then signed digits;
`0` when absent. -/
def parseExp (l : List Char) : Int :=
  match l with
  | [] => 0
  | c :: rest =>
    if c = 'e' then parseExpAfterE rest
    else if c = 'E' then parseExpAfterE rest
    else 0

/-- The optional fraction part after the integer digits: when a dot
leads, the digits after it (and the remainder after them); otherwise no
fraction digits and the unconsumed remainder. -/
def dotSplit : List Char → List Char × List Char
  | [] => ([], [])
  | c :: rest => if c = '.' then splitDigits rest else ([], c :: rest)

/-- Unsigned decimal literal of `parseFloat`: longest leading
`digits [. digits] [exponent]` run; `none` when no digit occurs in the
mantissa (JS returns `NaN`).  The result is the exact unsigned value as
mantissa and power of ten. -/
def parseDec (l : List Char) : Option (Nat × Int) :=
  if (splitDigits l).1.isEmpty && (dotSplit (splitDigits l).2).1.isEmpty then
    none
  else
    some (digitsVal (splitDigits l).1 *
        10 ^ (dotSplit (splitDigits l).2).1.length +
        digitsVal (dotSplit (splitDigits l).2).1,
      parseExp (dotSplit (splitDigits l).2).2 -
        ((dotSplit (splitDigits l).2).1.length : Int))

/-- The body of `parseFloat` after the optional sign: `Infinity`, or a
decimal literal, or `NaN`.  A parsed zero with a leading minus is JS
negative zero. -/
def parseSigned (neg : Bool) (l : List Char) : JSNum :=
  if isInfChars l then (if neg then .negInf else .inf)
  else
    match parseDec l with
    | none => .nan
    | some (m, e) =>
      if neg && decide (m = 0) then .negZero
      else .finite ⟨neg, m, e⟩

/-- JS `parseFloat`: skip leading whitespace, optional sign, then the
longest valid decimal-literal (or `Infinity`) run; `NaN` when none. -/
def jsParseFloat (s : String) : JSNum :=
  match s.data.dropWhile jsWhitespace with
  | [] => .nan
  | c :: rest =>
    if c = '-' then parseSigned true rest
    else if c = '+' then parseSigned false rest
    else parseSigned false (c :: rest)

/-- Whether the magnitude of a `Dec` is below `10^21` (the bound under
which `toFixed` uses fixed notation). -/
def Dec.lt21 (d : Dec) : Bool :=
  match d.exp with
  | .ofNat k => d.mant * 10 ^ k < 10 ^ 21
  | .negSucc m => d.mant < 10 ^ (21 + (m + 1))

/-- The integer `n` of `toFixed(2)`: the one minimizing the distance of
`n / 100` to the magnitude, larger `n` on ties — that is
`⌊mag * 100 + 1/2⌋`, computed exactly on the decimal representation. -/
def Dec.scaled2 (d : Dec) : Nat :=
  match d.exp + 2 with
  | .ofNat k => d.mant * 10 ^ k
  | .negSucc m => (2 * d.mant + 10 ^ (m + 1)) / (2 * 10 ^ (m + 1))

/-- Fixed-notation rendering with two decimals of `±(n / 100)`:
sign, integer digits, dot, two fraction digits (`toFixed(2)` output for
moderate magnitudes). -/
def renderFixed (neg : Bool) (n : Nat) : String :=
  ⟨(if neg then ['-'] else []) ++ natDigitsL (n / 100) ++
    ['.', digitChar (n % 100 / 10), digitChar (n % 100 % 10)]⟩

/-- JS rendering of a finite number of magnitude at least `10^21`
(ECMAScript ToString exponential notation).  The model renders the
exponential form of the integer part of the magnitude; no theorem below
depends on the digits of this branch. -/
def jsBigToString (d : Dec) : String :=
  let m : Nat :=
    match d.exp with
    | .ofNat k => d.mant * 10 ^ k
    | .negSucc e => d.mant / 10 ^ (e + 1)
  let ds := natDigitsL m
  let frac := ((ds.tail.reverse).dropWhile (· = '0')).reverse
  (if d.neg && decide (0 < d.mant) then "-" else "") ++ ⟨[ds.headD '0']⟩ ++
    (if frac.isEmpty then "" else "." ++ ⟨frac⟩) ++ "e+" ++
    Nat.repr ds.tail.length

/-- JS `num.toFixed(2)`: `NaN`/infinities render as their names, negative
zero as `0.00`; a finite value renders in fixed notation when its
magnitude is below `10^21` (sign `-` exactly when the value is negative),
and in ToString (exponential) notation otherwise. -/
def jsToFixed2 : JSNum → String
  | .nan => "NaN"
  | .inf => "Infinity"
  | .negInf => "-Infinity"
  | .negZero => renderFixed false 0
  | .finite d =>
    if d.lt21 then renderFixed (d.neg && decide (0 < d.mant)) d.scaled2
    else jsBigToString d

/-- The declared source format (`selectedBank` in the source). -/
inductive SourceFormat where
  | starling
  | revolut
deriving DecidableEq

/-- Name of a source format as it appears in error messages. -/
def fmtName : SourceFormat → String
  | .starling => "Starling"
  | .revolut => "Revolut"

/-- The column holding the date for a format. -/
def dateKey : SourceFormat → String
  | .starling => "Date"
  | .revolut => "Completed Date"

/-- The column holding the amount for a format. -/
def amountKey : SourceFormat → String
  | .starling => "Amount (GBP)"
  | .revolut => "Amount"

/-- The required headers of a format, in the order the source checks
them. -/
def requiredHeaders : SourceFormat → List String
  | .starling => ["Amount (GBP)", "Counter Party", "Date"]
  | .revolut => ["Completed Date", "Amount", "Description"]

/-- Missing-header error message of the source. -/
def missingColMsg (fmt : SourceFormat) (h : String) (keys : List String) :
    String :=
  "Missing required " ++ fmtName fmt ++ " column header: \"" ++ h ++
    "\". Found headers: " ++ String.intercalate ", " keys

/-- Missing-field row error message of the source. -/
def missingFieldMsg (k : String) (rowIndex : Nat) : String :=
  "Missing '" ++ k ++ "' in row " ++ Nat.repr rowIndex

/-- Malformed-date row error message of the source. -/
def badDateMsg (fmt : SourceFormat) (rowIndex : Nat) (raw : String) :
    String :=
  "Invalid date format in row " ++ Nat.repr rowIndex ++ ": \"" ++ raw ++
    "\". Expected " ++
    (match fmt with
     | .starling => "dd/mm/yyyy."
     | .revolut => "YYYY-MM-DD.")

/-- Non-numeric-amount row error message of the source. -/
def badAmtMsg (fmt : SourceFormat) (rowIndex : Nat) (raw : String) :
    String :=
  "Invalid '" ++ amountKey fmt ++ "' in row " ++ Nat.repr rowIndex ++
    ": \"" ++ raw ++ "\". Not a valid number."

/-- The catch-all wrapper each converter puts around a thrown message. -/
def wrapMsg (fmt : SourceFormat) (m : String) : String :=
  "Error during " ++ fmtName fmt ++ " conversion: " ++ m

/-- The date pattern `\d{2}/\d{2}/\d{4}` on a character list. -/
def datePatternL (l : List Char) : Bool :=
  match l with
  | [a, b, c, d, e, f, g, h, i, j] =>
    a.isDigit && b.isDigit && (c = '/') && d.isDigit && e.isDigit &&
      (f = '/') && g.isDigit && h.isDigit && i.isDigit && j.isDigit
  | _ => false

/-- The Starling date pattern `/^\d{2}\/\d{2}\/\d{4}$/`. -/
def datePatternB (s : String) : Bool :=
  datePatternL s.data

/-- The shape `xx/xx/xxxx` on a character list: ten characters with
slashes at positions 2 and 5 (the digit-free weakening of the date
pattern). -/
def dateShapeL (l : List Char) : Bool :=
  match l with
  | [_, _, c, _, _, f, _, _, _, _] => (c = '/') && (f = '/')
  | _ => false

/-- The shape `xx/xx/xxxx` of a string. -/
def dateShape (s : String) : Bool :=
  dateShapeL s.data

/-- Body of the amount pattern: `\d+\.\d{2}` (nonempty digits, dot, two
digits), checked from the end of the character list. -/
def amountBody (l : List Char) : Bool :=
  match l.reverse with
  | b :: a :: c :: ds =>
    a.isDigit && b.isDigit && (c = '.') && !ds.isEmpty &&
      ds.all Char.isDigit
  | _ => false

/-- The amount pattern `^-?\d+\.\d{2}$`. -/
def amountOk (s : String) : Bool :=
  match s.data with
  | [] => false
  | c :: rest => if c = '-' then amountBody rest else amountBody (c :: rest)

/-- The description invariant: no comma, no double quote, no line
break. -/
def descOk (s : String) : Bool :=
  s.data.all (fun c => !(c = ',' || c = '"' || c = '\n' || c = '\r'))

/-- The description the Starling converter builds before sanitization:
Counter Party (empty when falsy), suffixed with " - " and the Reference
when the Reference is truthy. -/
def starlingDesc (row : Row) : String :=
  let counterParty := (lookupField row "Counter Party").getD ""
  match lookupField row "Reference" with
  | some r => if r = "" then counterParty else counterParty ++ " - " ++ r
  | none => counterParty

/-- The body of the Starling `data.map` callback: validation and field
mapping of one row (`index` is the zero-based position, row numbers in
messages are `index + 2`). -/
def starlingRow (index : Nat) (row : Row) :
    Except String FreeAgentTransaction :=
  if falsyStr (lookupField row "Date") then
    .error (missingFieldMsg "Date" (index + 2))
  else if (lookupField row "Amount (GBP)").isNone then
    .error (missingFieldMsg "Amount (GBP)" (index + 2))
  else if !datePatternB ((lookupField row "Date").getD "") then
    .error (badDateMsg .starling (index + 2)
      ((lookupField row "Date").getD ""))
  else if jsParseFloat ((lookupField row "Amount (GBP)").getD "") =
      JSNum.nan then
    .error (badAmtMsg .starling (index + 2)
      ((lookupField row "Amount (GBP)").getD ""))
  else
    .ok ⟨(lookupField row "Date").getD "",
      jsToFixed2 (jsParseFloat ((lookupField row "Amount (GBP)").getD "")),
      sanitize (starlingDesc row)⟩

/-- JS `str.split(sep)` for a single-character separator, on character
lists: always at least one (possibly empty) piece. -/
def splitOnChar (sep : Char) : List Char → List (List Char)
  | [] => [[]]
  | c :: rest =>
    if c = sep then [] :: splitOnChar sep rest
    else
      match splitOnChar sep rest with
      | [] => [[c]]
      | h :: t => (c :: h) :: t

/-- The Revolut date extraction: first space-delimited token of
`Completed Date`, split on `-`; succeeds with the three segments exactly
when there are three of lengths 4, 2, 2. -/
def revolutDateSegs (completedDate : String) :
    Option (String × String × String) :=
  match splitOnChar '-' ((splitOnChar ' ' completedDate.data).headD []) with
  | [y, m, d] =>
    if y.length = 4 && m.length = 2 && d.length = 2 then
      some (⟨y⟩, ⟨m⟩, ⟨d⟩)
    else none
  | _ => none

/-- The body of the Revolut `data.map` callback. -/
def revolutRow (index : Nat) (row : Row) :
    Except String FreeAgentTransaction :=
  if falsyStr (lookupField row "Completed Date") then
    .error (missingFieldMsg "Completed Date" (index + 2))
  else if (lookupField row "Amount").isNone then
    .error (missingFieldMsg "Amount" (index + 2))
  else
    match revolutDateSegs ((lookupField row "Completed Date").getD "") with
    | none =>
      .error (badDateMsg .revolut (index + 2)
        ((lookupField row "Completed Date").getD ""))
    | some (y, m, d) =>
      if jsParseFloat ((lookupField row "Amount").getD "") = JSNum.nan then
        .error (badAmtMsg .revolut (index + 2)
          ((lookupField row "Amount").getD ""))
      else
        .ok ⟨d ++ "/" ++ m ++ "/" ++ y,
          jsToFixed2 (jsParseFloat ((lookupField row "Amount").getD "")),
          sanitize ((lookupField row "Description").getD "")⟩

/-- JS `data.map(cb)` where the callback can throw: the elements in
order, aborting at the first thrown error (`i` is the index of the first
element). -/
def mapRows {α : Type} (f : Nat → α → Except String FreeAgentTransaction) :
    Nat → List α → Except String (List FreeAgentTransaction)
  | _, [] => .ok []
  | i, r :: rs =>
    match f i r with
    | .error e => .error e
    | .ok t =>
      match mapRows f (i + 1) rs with
      | .error e => .error e
      | .ok ts => .ok (t :: ts)

/-- `convertStarlingToFreeAgent` of the source: empty input yields the
empty list; otherwise the first row's keys must contain the three
required headers (checked in source order), then every row is mapped;
any thrown message is caught and wrapped. -/
def convertStarlingToFreeAgent (data : List Row) :
    Except String (List FreeAgentTransaction) :=
  match data with
  | [] => .ok []
  | first :: _ =>
    if !(rowKeys first).contains "Amount (GBP)" then
      .error (wrapMsg .starling
        (missingColMsg .starling "Amount (GBP)" (rowKeys first)))
    else if !(rowKeys first).contains "Counter Party" then
      .error (wrapMsg .starling
        (missingColMsg .starling "Counter Party" (rowKeys first)))
    else if !(rowKeys first).contains "Date" then
      .error (wrapMsg .starling
        (missingColMsg .starling "Date" (rowKeys first)))
    else
      match mapRows starlingRow 0 data with
      | .error m => .error (wrapMsg .starling m)
      | .ok l => .ok l

/-- `convertRevolutToFreeAgent` of the source: like the Starling
converter with the Revolut headers, whose check is a loop over the
required list. -/
def convertRevolutToFreeAgent (data : List Row) :
    Except String (List FreeAgentTransaction) :=
  match data with
  | [] => .ok []
  | first :: _ =>
    match (requiredHeaders .revolut).find?
        (fun h => !(rowKeys first).contains h) with
    | some h =>
      .error (wrapMsg .revolut (missingColMsg .revolut h (rowKeys first)))
    | none =>
      match mapRows revolutRow 0 data with
      | .error m => .error (wrapMsg .revolut m)
      | .ok l => .ok l

/-- The normalizer contract of the spec: dispatch on the source format
(`handleProcessUpload` in the source). -/
def normalize : SourceFormat → List Row →
    Except String (List FreeAgentTransaction)
  | .starling => convertStarlingToFreeAgent
  | .revolut => convertRevolutToFreeAgent

/-- The per-row callback of each format. -/
def rowFn : SourceFormat → Nat → Row → Except String FreeAgentTransaction
  | .starling => starlingRow
  | .revolut => revolutRow

/-- Whether the header check of a format passes on the given data. -/
def headersOkB (fmt : SourceFormat) (data : List Row) : Bool :=
  match data with
  | [] => true
  | first :: _ =>
    (requiredHeaders fmt).all (fun h => (rowKeys first).contains h)

/-- Whether the date field of a row passes the format's date
validation. -/
def dateFieldValid (fmt : SourceFormat) (row : Row) : Bool :=
  match fmt with
  | .starling =>
    !falsyStr (lookupField row "Date") &&
      datePatternB ((lookupField row "Date").getD "")
  | .revolut =>
    !falsyStr (lookupField row "Completed Date") &&
      (revolutDateSegs ((lookupField row "Completed Date").getD "")).isSome

/-- The raw date value of a row (empty for an absent field). -/
def dateRawOf (fmt : SourceFormat) (row : Row) : String :=
  (lookupField row (dateKey fmt)).getD ""

/-- The raw amount value of a row (empty for an absent field). -/
def amountRawOf (fmt : SourceFormat) (row : Row) : String :=
  (lookupField row (amountKey fmt)).getD ""

/-- The possible row-level failure messages at zero-based row `i`: each
cites the human-readable row number `i + 2`, and the malformed-date and
non-numeric-amount messages additionally cite the raw offending value. -/
def rowErrorShape (fmt : SourceFormat) (i : Nat) (row : Row) (m : String) :
    Prop :=
  m = missingFieldMsg (dateKey fmt) (i + 2) ∨
  m = missingFieldMsg (amountKey fmt) (i + 2) ∨
  m = badDateMsg fmt (i + 2) (dateRawOf fmt row) ∨
  m = badAmtMsg fmt (i + 2) (amountRawOf fmt row)

/-- Modelled from the spec: the source has no identity source format.
Spec §8's round-trip property treats an already-normalized record as a
"trivial identity format" whose fields are read back "through the same
validation, amount re-rendering and sanitization steps": the dd/mm/yyyy
date pattern check, the parseFloat non-NaN amount check with toFixed(2)
re-rendering, and the shared description sanitization. -/
def identityRow (index : Nat) (rec : FreeAgentTransaction) :
    Except String FreeAgentTransaction :=
  if !datePatternB rec.Date then
    .error (badDateMsg .starling (index + 2) rec.Date)
  else if jsParseFloat rec.Amount = JSNum.nan then
    .error (badAmtMsg .starling (index + 2) rec.Amount)
  else
    .ok ⟨rec.Date, jsToFixed2 (jsParseFloat rec.Amount),
      sanitize rec.Description⟩

/-- Modelled from the spec: re-normalization of a record set through the
trivial identity format, row by row like the converters. -/
def renormalize (recs : List FreeAgentTransaction) :
    Except String (List FreeAgentTransaction) :=
  mapRows identityRow 0 recs

/-- An already-normalized record, as the converters produce them: the
date matches the dd/mm/yyyy pattern, the description is a fixpoint of the
sanitization, and the amount is a canonical fixed-notation two-decimal
rendering of a value of magnitude below `10^21` (scaled numerator below
`10^23`). -/
def NormalizedRec (rec : FreeAgentTransaction) : Prop :=
  datePatternB rec.Date = true ∧
  sanitize rec.Description = rec.Description ∧
  ∃ neg n, rec.Amount = renderFixed neg n ∧ n < 10 ^ 23

/-! Character-level facts. -/

lemma digitChar_isDigit (d : Nat) (h : d < 10) :
    (digitChar d).isDigit = true := by
  interval_cases d <;> decide

lemma digitChar_toNat (d : Nat) (h : d < 10) :
    (digitChar d).toNat = 48 + d := by
  interval_cases d <;> decide

lemma ne_of_digit (c x : Char) (h : c.isDigit = true)
    (hx : x.isDigit = false) : ¬ c = x := by
  intro he
  subst he
  rw [h] at hx
  cases hx

lemma isDigit_not_ws (c : Char) (h : c.isDigit = true) :
    jsWhitespace c = false := by
  unfold jsWhitespace
  by_contra hc
  simp only [Bool.or_eq_true, decide_eq_true_eq, Bool.not_eq_false] at hc
  rcases hc with ((((h1 | h1) | h1) | h1) | h1) | h1 <;> subst h1 <;>
    exact absurd h (by decide)

/-! Facts about the decimal digit renderer `natDigitsGo`/`natDigitsL`. -/

lemma natDigitsGo_all_digits :
    ∀ fuel n acc, (∀ c ∈ acc, c.isDigit = true) → n < fuel →
      ∀ c ∈ natDigitsGo fuel n acc, c.isDigit = true := by
  intro fuel
  induction fuel with
  | zero => intro n acc _ hn; omega
  | succ fuel ih =>
    intro n acc hacc _ c hc
    unfold natDigitsGo at hc
    by_cases h10 : n < 10
    · simp only [if_pos h10, List.mem_cons] at hc
      rcases hc with rfl | hc
      · exact digitChar_isDigit n h10
      · exact hacc c hc
    · simp only [if_neg h10] at hc
      have hlt : n / 10 < fuel := by
        have := Nat.div_lt_self (by omega : 0 < n) (by norm_num : 1 < 10)
        omega
      refine ih (n / 10) _ ?_ hlt c hc
      intro c2 hc2
      rcases List.mem_cons.mp hc2 with rfl | hc2
      · exact digitChar_isDigit _ (Nat.mod_lt _ (by norm_num))
      · exact hacc c2 hc2

lemma natDigitsGo_nonempty :
    ∀ fuel n acc, (n < fuel ∨ acc ≠ []) → natDigitsGo fuel n acc ≠ [] := by
  intro fuel
  induction fuel with
  | zero =>
    intro n acc h
    rcases h with h | h
    · omega
    · exact h
  | succ fuel ih =>
    intro n acc _
    unfold natDigitsGo
    by_cases h10 : n < 10
    · simp [if_pos h10]
    · simp only [if_neg h10]
      exact ih _ _ (Or.inr (by simp))

lemma natDigitsGo_append :
    ∀ fuel n acc, natDigitsGo fuel n acc = natDigitsGo fuel n [] ++ acc := by
  intro fuel
  induction fuel with
  | zero => intro n acc; rfl
  | succ fuel ih =>
    intro n acc
    unfold natDigitsGo
    by_cases h10 : n < 10
    · simp [if_pos h10]
    · simp only [if_neg h10]
      rw [ih (n / 10) (digitChar (n % 10) :: acc),
        ih (n / 10) [digitChar (n % 10)], List.append_assoc]
      rfl

lemma digitsVal_snoc (xs : List Char) (c : Char) :
    digitsVal (xs ++ [c]) = digitsVal xs * 10 + (c.toNat - 48) := by
  unfold digitsVal
  rw [List.foldl_append]
  rfl

lemma digitsVal_natDigitsGo :
    ∀ fuel n, n < fuel → digitsVal (natDigitsGo fuel n []) = n := by
  intro fuel
  induction fuel with
  | zero => intro n hn; omega
  | succ fuel ih =>
    intro n hn
    unfold natDigitsGo
    by_cases h10 : n < 10
    · simp only [if_pos h10]
      show digitsVal ([] ++ [digitChar n]) = n
      rw [digitsVal_snoc, digitChar_toNat n h10]
      simp [digitsVal]
    · simp only [if_neg h10]
      have hlt : n / 10 < fuel := by
        have := Nat.div_lt_self (by omega : 0 < n) (by norm_num : 1 < 10)
        omega
      rw [natDigitsGo_append, digitsVal_snoc, ih _ hlt,
        digitChar_toNat _ (Nat.mod_lt _ (by norm_num))]
      omega

lemma natDigitsL_all_digits (n : Nat) :
    ∀ c ∈ natDigitsL n, c.isDigit = true :=
  natDigitsGo_all_digits (n + 1) n [] (by simp) (Nat.lt_succ_self n)

lemma natDigitsL_nonempty (n : Nat) : natDigitsL n ≠ [] :=
  natDigitsGo_nonempty (n + 1) n [] (Or.inl (Nat.lt_succ_self n))

lemma digitsVal_natDigitsL (n : Nat) : digitsVal (natDigitsL n) = n :=
  digitsVal_natDigitsGo (n + 1) n (Nat.lt_succ_self n)

/-! Facts about `splitDigits`. -/

lemma splitDigits_cons_digit (c : Char) (l : List Char)
    (h : c.isDigit = true) :
    splitDigits (c :: l) = (c :: (splitDigits l).1, (splitDigits l).2) := by
  simp [splitDigits, h]

lemma splitDigits_no_digit (l : List Char)
    (h : ∀ c t, l = c :: t → c.isDigit = false) :
    splitDigits l = ([], l) := by
  cases l with
  | nil => rfl
  | cons c t => simp [splitDigits, h c t rfl]

lemma splitDigits_append (ds r : List Char)
    (hds : ∀ c ∈ ds, c.isDigit = true)
    (hr : ∀ c t, r = c :: t → c.isDigit = false) :
    splitDigits (ds ++ r) = (ds, r) := by
  induction ds with
  | nil => simpa using splitDigits_no_digit r hr
  | cons c t ih =>
    have hc : c.isDigit = true := hds c (by simp)
    rw [List.cons_append, splitDigits_cons_digit c _ hc,
      ih (fun x hx => hds x (by simp [hx]))]

/-! Facts about `collapseNewlines`, `jsTrim` and `sanitize`. -/

lemma collapseNewlines_mem_go :
    ∀ (n : Nat) (l : List Char), l.length ≤ n → ∀ c ∈ collapseNewlines l,
      (c = ' ' ∨ c ∈ l) ∧ ¬c = '\r' ∧ ¬c = '\n' := by
  intro n
  induction n with
  | zero =>
    intro l hl c hc
    have : l = [] := List.length_eq_zero.mp (Nat.le_zero.mp hl)
    subst this
    simp [collapseNewlines] at hc
  | succ n ih =>
    intro l hl c hc
    cases l with
    | nil => simp [collapseNewlines] at hc
    | cons a t =>
      cases t with
      | nil =>
        simp only [collapseNewlines] at hc
        split_ifs at hc with h
        · simp only [List.mem_singleton] at hc
          subst hc
          exact ⟨Or.inl rfl, by decide, by decide⟩
        · simp only [List.mem_singleton] at hc
          subst hc
          simp only [Bool.or_eq_true, decide_eq_true_eq] at h
          push_neg at h
          exact ⟨Or.inr (by simp), h.1, h.2⟩
      | cons b r =>
        simp only [collapseNewlines] at hc
        simp only [List.length_cons] at hl
        split_ifs at hc with h1 h2 h3
        · rcases List.mem_cons.mp hc with rfl | hc
          · exact ⟨Or.inl rfl, by decide, by decide⟩
          · have := ih r (by omega) c hc
            exact ⟨this.1.imp id (by intro hm; simp [hm]), this.2⟩
        · rcases List.mem_cons.mp hc with rfl | hc
          · exact ⟨Or.inl rfl, by decide, by decide⟩
          · have := ih (b :: r) (by simp; omega) c hc
            exact ⟨this.1.imp id (by intro hm; simp [List.mem_cons.mp hm]),
              this.2⟩
        · rcases List.mem_cons.mp hc with rfl | hc
          · exact ⟨Or.inl rfl, by decide, by decide⟩
          · have := ih (b :: r) (by simp; omega) c hc
            exact ⟨this.1.imp id (by intro hm; simp [List.mem_cons.mp hm]),
              this.2⟩
        · rcases List.mem_cons.mp hc with rfl | hc
          · exact ⟨Or.inr (by simp), h1, h3⟩
          · have := ih (b :: r) (by simp; omega) c hc
            exact ⟨this.1.imp id (by intro hm; simp [List.mem_cons.mp hm]),
              this.2⟩

lemma collapseNewlines_mem (l : List Char) (c : Char)
    (hc : c ∈ collapseNewlines l) :
    (c = ' ' ∨ c ∈ l) ∧ ¬c = '\r' ∧ ¬c = '\n' :=
  collapseNewlines_mem_go l.length l (Nat.le_refl _) c hc

lemma mem_of_mem_jsTrim (s : String) (c : Char)
    (hc : c ∈ (jsTrim s).data) : c ∈ s.data := by
  unfold jsTrim at hc
  simp only [List.mem_reverse] at hc
  have h1 := (List.dropWhile_sublist
    (l := (s.data.dropWhile jsWhitespace).reverse)
    (p := jsWhitespace)).mem hc
  simp only [List.mem_reverse] at h1
  exact (List.dropWhile_sublist (l := s.data) (p := jsWhitespace)).mem h1

/-- Sanitized descriptions satisfy the description invariant. -/
lemma descOk_sanitize (s : String) : descOk (sanitize s) = true := by
  unfold descOk
  rw [List.all_eq_true]
  intro c hc
  have hmem : c ∈ collapseNewlines
      ((s.data.filter (· ≠ ',')).filter (· ≠ '"')) :=
    mem_of_mem_jsTrim _ c hc
  have h := collapseNewlines_mem _ c hmem
  have hcomma : ¬c = ',' := by
    rcases h.1 with rfl | hm
    · decide
    · exact of_decide_eq_true (List.mem_filter.mp (List.mem_filter.mp hm).1).2
  have hquote : ¬c = '"' := by
    rcases h.1 with rfl | hm
    · decide
    · exact of_decide_eq_true (List.mem_filter.mp hm).2
  simp [hcomma, hquote, h.2.1, h.2.2]

/-! The rendering of `toFixed(2)` satisfies the amount pattern. -/

lemma amountBody_render (n : Nat) :
    amountBody (natDigitsL (n / 100) ++
      ['.', digitChar (n % 100 / 10), digitChar (n % 100 % 10)]) = true := by
  unfold amountBody
  rw [List.reverse_append]
  have h3 : (['.', digitChar (n % 100 / 10),
      digitChar (n % 100 % 10)]).reverse =
      digitChar (n % 100 % 10) :: digitChar (n % 100 / 10) :: ['.'] := by
    rfl
  rw [h3]
  simp only [List.cons_append, List.nil_append]
  have h1 : (digitChar (n % 100 / 10)).isDigit = true :=
    digitChar_isDigit _ (by omega)
  have h2 : (digitChar (n % 100 % 10)).isDigit = true :=
    digitChar_isDigit _ (by omega)
  have h4 : ((natDigitsL (n / 100)).reverse.isEmpty) = false := by
    rw [List.isEmpty_eq_false_iff_exists_mem]
    obtain ⟨c, t, hct⟩ := List.exists_cons_of_ne_nil (natDigitsL_nonempty
      (n / 100))
    exact ⟨c, by simp [hct]⟩
  have h5 : (natDigitsL (n / 100)).reverse.all Char.isDigit = true := by
    rw [List.all_eq_true]
    intro c hc
    exact natDigitsL_all_digits _ c (List.mem_reverse.mp hc)
  simp [h1, h2, h4, h5]

lemma renderFixed_amountOk (neg : Bool) (n : Nat) :
    amountOk (renderFixed neg n) = true := by
  obtain ⟨c0, t0, hds⟩ := List.exists_cons_of_ne_nil (natDigitsL_nonempty
    (n / 100))
  have hc0 : c0.isDigit = true := by
    refine natDigitsL_all_digits (n / 100) c0 ?_
    rw [hds]
    exact List.mem_cons_self c0 t0
  cases neg with
  | false =>
    show amountOk ⟨[] ++ natDigitsL (n / 100) ++ _⟩ = true
    rw [List.nil_append, hds]
    unfold amountOk
    simp only [List.cons_append]
    rw [if_neg (ne_of_digit c0 '-' hc0 (by decide))]
    rw [← List.cons_append, ← hds]
    exact amountBody_render n
  | true =>
    show amountOk ⟨['-'] ++ natDigitsL (n / 100) ++ _⟩ = true
    unfold amountOk
    simp only [List.cons_append, List.nil_append]
    rw [if_pos trivial]
    exact amountBody_render n

/-! Date shapes. -/

lemma dateShapeL_of_pattern (l : List Char) (h : datePatternL l = true) :
    dateShapeL l = true := by
  unfold datePatternL at h
  unfold dateShapeL
  rcases l with _ | ⟨a, _ | ⟨b, _ | ⟨c, _ | ⟨d, _ | ⟨e, _ | ⟨f, _ | ⟨g, _ |
    ⟨h8, _ | ⟨i, _ | ⟨j, _ | ⟨k, t⟩⟩⟩⟩⟩⟩⟩⟩⟩⟩⟩ <;> simp_all

lemma dateShape_of_pattern (s : String) (h : datePatternB s = true) :
    dateShape s = true :=
  dateShapeL_of_pattern s.data h

lemma dateShape_build (y m d : String) (hy : y.length = 4)
    (hm : m.length = 2) (hd : d.length = 2) :
    dateShape (d ++ "/" ++ m ++ "/" ++ y) = true := by
  unfold dateShape
  rw [show (d ++ "/" ++ m ++ "/" ++ y).data =
    d.data ++ ['/'] ++ m.data ++ ['/'] ++ y.data by
      simp [String.data_append]]
  have hy' : y.data.length = 4 := hy
  have hm' : m.data.length = 2 := hm
  have hd' : d.data.length = 2 := hd
  obtain ⟨d1, d2, hdl⟩ := List.length_eq_two.mp hd'
  obtain ⟨m1, m2, hml⟩ := List.length_eq_two.mp hm'
  obtain ⟨y1, ty, hyl⟩ := List.exists_cons_of_ne_nil
    (List.ne_nil_of_length_pos (by omega : 0 < y.data.length))
  have hty : ty.length = 3 := by
    rw [hyl] at hy'
    simpa using hy'
  obtain ⟨y2, y3, y4, htyl⟩ := List.length_eq_three.mp hty
  rw [hdl, hml, hyl, htyl]
  rfl

/-! The two-decimal rendering used for every successful amount. -/

lemma jsToFixed2_shape (num : JSNum) (h : ¬num = JSNum.nan) :
    amountOk (jsToFixed2 num) = true ∨ jsToFixed2 num = "Infinity" ∨
      jsToFixed2 num = "-Infinity" ∨
      ∃ d, jsToFixed2 num = jsBigToString d ∧ d.lt21 = false := by
  cases num with
  | nan => exact absurd rfl h
  | inf => exact Or.inr (Or.inl rfl)
  | negInf => exact Or.inr (Or.inr (Or.inl rfl))
  | negZero => exact Or.inl (renderFixed_amountOk false 0)
  | finite d =>
    by_cases hlt : d.lt21 = true
    · left
      simp only [jsToFixed2]
      rw [if_pos hlt]
      exact renderFixed_amountOk _ _
    · right; right; right
      refine ⟨d, ?_, by simpa using hlt⟩
      simp only [jsToFixed2]
      rw [if_neg hlt]

/-! Shape of successful and failing row conversions. -/

lemma starlingRow_ok (i : Nat) (row : Row) (rec : FreeAgentTransaction)
    (h : starlingRow i row = .ok rec) :
    rec.Date = (lookupField row "Date").getD "" ∧
    datePatternB rec.Date = true ∧
    rec.Amount =
      jsToFixed2 (jsParseFloat ((lookupField row "Amount (GBP)").getD "")) ∧
    ¬jsParseFloat ((lookupField row "Amount (GBP)").getD "") = JSNum.nan ∧
    rec.Description = sanitize (starlingDesc row) := by
  unfold starlingRow at h
  split_ifs at h with h1 h2 h3 h4
  injection h with h5
  subst h5
  refine ⟨rfl, ?_, rfl, h4, rfl⟩
  simpa using h3

lemma revolutRow_ok (i : Nat) (row : Row) (rec : FreeAgentTransaction)
    (h : revolutRow i row = .ok rec) :
    ∃ y m d,
      revolutDateSegs ((lookupField row "Completed Date").getD "") =
        some (y, m, d) ∧
      rec.Date = d ++ "/" ++ m ++ "/" ++ y ∧
      rec.Amount =
        jsToFixed2 (jsParseFloat ((lookupField row "Amount").getD "")) ∧
      ¬jsParseFloat ((lookupField row "Amount").getD "") = JSNum.nan ∧
      rec.Description = sanitize ((lookupField row "Description").getD "") := by
  unfold revolutRow at h
  rcases hseg : revolutDateSegs ((lookupField row "Completed Date").getD "")
    with _ | ⟨y, mo, d⟩ <;> rw [hseg] at h <;> dsimp only at h
  · split_ifs at h
  · split_ifs at h with h1 h2 h3
    all_goals injection h with h5
    subst h5
    exact ⟨y, mo, d, rfl, rfl, rfl, h3, rfl⟩

lemma revolutDateSegs_lengths (cd y m d : String)
    (h : revolutDateSegs cd = some (y, m, d)) :
    y.length = 4 ∧ m.length = 2 ∧ d.length = 2 := by
  unfold revolutDateSegs at h
  rcases hsp : splitOnChar '-' ((splitOnChar ' ' cd.data).headD []) with
    _ | ⟨ly, _ | ⟨lm, _ | ⟨ld, _ | ⟨l4, t⟩⟩⟩⟩ <;> rw [hsp] at h
  · simp at h
  · simp at h
  · simp at h
  · dsimp only at h
    split_ifs at h with hlen
    injection h with h5
    simp only [Prod.mk.injEq] at h5
    obtain ⟨hy, hm2, hd2⟩ := h5
    subst hy
    subst hm2
    subst hd2
    simp only [Bool.and_eq_true, decide_eq_true_eq] at hlen
    exact ⟨hlen.1.1, hlen.1.2, hlen.2⟩
  · simp at h

lemma starlingRow_error (i : Nat) (row : Row) (m : String)
    (h : starlingRow i row = .error m) :
    rowErrorShape .starling i row m := by
  unfold starlingRow at h
  unfold rowErrorShape dateRawOf amountRawOf dateKey amountKey
  split_ifs at h with h1 h2 h3 h4 <;> injection h with h5 <;>
    subst h5 <;> simp

lemma revolutRow_error (i : Nat) (row : Row) (m : String)
    (h : revolutRow i row = .error m) :
    rowErrorShape .revolut i row m := by
  unfold revolutRow at h
  unfold rowErrorShape dateRawOf amountRawOf dateKey amountKey
  rcases hseg : revolutDateSegs ((lookupField row "Completed Date").getD "")
    with _ | ⟨y, mo, d⟩ <;> rw [hseg] at h <;> dsimp only at h <;>
    split_ifs at h <;> (try injection h with h5) <;> (try subst h5) <;> simp

lemma rowFn_error (fmt : SourceFormat) (i : Nat) (row : Row) (m : String)
    (h : rowFn fmt i row = .error m) : rowErrorShape fmt i row m := by
  cases fmt
  · exact starlingRow_error i row m h
  · exact revolutRow_error i row m h

/-! Facts about `mapRows`. -/

lemma mapRows_ok_length {α : Type}
    (f : Nat → α → Except String FreeAgentTransaction) :
    ∀ (l : List α) (s : Nat) (out : List FreeAgentTransaction),
      mapRows f s l = .ok out → out.length = l.length := by
  intro l
  induction l with
  | nil =>
    intro s out h
    unfold mapRows at h
    injection h with h5
    subst h5
    rfl
  | cons r rs ih =>
    intro s out h
    unfold mapRows at h
    rcases hf : f s r with e | t <;> rw [hf] at h
    · exact absurd h (by simp)
    · rcases hm : mapRows f (s + 1) rs with e | ts <;> rw [hm] at h
      · exact absurd h (by simp)
      · injection h with h5
        subst h5
        simp [ih (s + 1) ts hm]

lemma mapRows_ok_get {α : Type}
    (f : Nat → α → Except String FreeAgentTransaction) :
    ∀ (l : List α) (s : Nat) (out : List FreeAgentTransaction),
      mapRows f s l = .ok out →
      ∀ (i : Nat) (h1 : i < l.length) (h2 : i < out.length),
        f (s + i) (l.get ⟨i, h1⟩) = .ok (out.get ⟨i, h2⟩) := by
  intro l
  induction l with
  | nil =>
    intro s out h i h1 h2
    exact absurd h1 (by simp)
  | cons r rs ih =>
    intro s out h i h1 h2
    unfold mapRows at h
    rcases hf : f s r with e | t <;> rw [hf] at h
    · exact absurd h (by simp)
    · rcases hm : mapRows f (s + 1) rs with e | ts <;> rw [hm] at h
      · exact absurd h (by simp)
      · injection h with h5
        subst h5
        cases i with
        | zero => simpa using hf
        | succ i =>
          have := ih (s + 1) ts hm i (by simpa using h1)
            (by simpa using h2)
          simpa [Nat.add_assoc, Nat.add_comm 1 i] using this

lemma mapRows_ok_mem {α : Type}
    (f : Nat → α → Except String FreeAgentTransaction) :
    ∀ (l : List α) (s : Nat) (out : List FreeAgentTransaction),
      mapRows f s l = .ok out →
      ∀ rec ∈ out, ∃ i r, r ∈ l ∧ f i r = .ok rec := by
  intro l
  induction l with
  | nil =>
    intro s out h rec hrec
    unfold mapRows at h
    injection h with h5
    subst h5
    exact absurd hrec (by simp)
  | cons r rs ih =>
    intro s out h rec hrec
    unfold mapRows at h
    rcases hf : f s r with e | t <;> rw [hf] at h
    · exact absurd h (by simp)
    · rcases hm : mapRows f (s + 1) rs with e | ts <;> rw [hm] at h
      · exact absurd h (by simp)
      · injection h with h5
        subst h5
        rcases List.mem_cons.mp hrec with rfl | hrec2
        · exact ⟨s, r, by simp, hf⟩
        · obtain ⟨i, r2, hr2, hfr2⟩ := ih (s + 1) ts hm rec hrec2
          exact ⟨i, r2, by simp [hr2], hfr2⟩

lemma mapRows_error_at {α : Type}
    (f : Nat → α → Except String FreeAgentTransaction) :
    ∀ (pre : List α) (s : Nat) (bad : α) (rest : List α) (m : String),
      (∀ (i : Nat) (h : i < pre.length),
        ∃ t, f (s + i) (pre.get ⟨i, h⟩) = .ok t) →
      f (s + pre.length) bad = .error m →
      mapRows f s (pre ++ bad :: rest) = .error m := by
  intro pre
  induction pre with
  | nil =>
    intro s bad rest m _ hbad
    unfold mapRows
    simp only [List.nil_append]
    rw [show s + ([] : List α).length = s by simp] at hbad
    rw [hbad]
  | cons p ps ih =>
    intro s bad rest m hpre hbad
    unfold mapRows
    simp only [List.cons_append]
    obtain ⟨t, ht⟩ := hpre 0 (by simp)
    rw [show s + 0 = s by rfl] at ht
    simp only [List.get] at ht
    rw [ht]
    have hrec := ih (s + 1) bad rest m
      (fun i hi => by
        have := hpre (i + 1) (by simpa using Nat.succ_lt_succ hi)
        simpa [Nat.add_assoc, Nat.add_comm 1 i] using this)
      (by simpa [Nat.add_assoc, Nat.add_comm 1 ps.length,
        List.length_cons] using hbad)
    rw [hrec]

/-! Relating the converters to `mapRows` and the header checks. -/

lemma starling_ok_mapRows (data : List Row)
    (out : List FreeAgentTransaction)
    (h : convertStarlingToFreeAgent data = .ok out) :
    mapRows starlingRow 0 data = .ok out := by
  cases data with
  | nil =>
    injection h with h5
    subst h5
    rfl
  | cons first rest =>
    unfold convertStarlingToFreeAgent at h
    dsimp only at h
    split_ifs at h
    rcases hm : mapRows starlingRow 0 (first :: rest) with m | l <;>
      rw [hm] at h
    · injection h
    · injection h with h5
      subst h5
      rfl

lemma revolut_ok_mapRows (data : List Row)
    (out : List FreeAgentTransaction)
    (h : convertRevolutToFreeAgent data = .ok out) :
    mapRows revolutRow 0 data = .ok out := by
  cases data with
  | nil =>
    injection h with h5
    subst h5
    rfl
  | cons first rest =>
    unfold convertRevolutToFreeAgent at h
    dsimp only at h
    rcases hf : (requiredHeaders .revolut).find?
        (fun hd => !(rowKeys first).contains hd) with _ | hd <;>
      rw [hf] at h <;> dsimp only at h
    · rcases hm : mapRows revolutRow 0 (first :: rest) with m | l <;>
        rw [hm] at h
      · injection h
      · injection h with h5
        subst h5
        rfl
    · injection h

lemma normalize_ok_mapRows (fmt : SourceFormat) (data : List Row)
    (out : List FreeAgentTransaction) (h : normalize fmt data = .ok out) :
    mapRows (rowFn fmt) 0 data = .ok out := by
  cases fmt
  · exact starling_ok_mapRows data out h
  · exact revolut_ok_mapRows data out h

lemma starling_error_of_mapRows (first : Row) (rest : List Row) (m : String)
    (hh : headersOkB .starling (first :: rest) = true)
    (hm : mapRows starlingRow 0 (first :: rest) = .error m) :
    convertStarlingToFreeAgent (first :: rest) =
      .error (wrapMsg .starling m) := by
  unfold headersOkB requiredHeaders at hh
  simp only [List.all_cons, List.all_nil, Bool.and_eq_true] at hh
  have h1m : "Amount (GBP)" ∈ rowKeys first := by simpa using hh.1
  have h2m : "Counter Party" ∈ rowKeys first := by simpa using hh.2.1
  have h3m : "Date" ∈ rowKeys first := by simpa using hh.2.2.1
  unfold convertStarlingToFreeAgent
  dsimp only
  rw [if_neg (by simp [h1m]), if_neg (by simp [h2m]),
    if_neg (by simp [h3m]), hm]

lemma revolut_error_of_mapRows (first : Row) (rest : List Row) (m : String)
    (hh : headersOkB .revolut (first :: rest) = true)
    (hm : mapRows revolutRow 0 (first :: rest) = .error m) :
    convertRevolutToFreeAgent (first :: rest) =
      .error (wrapMsg .revolut m) := by
  unfold headersOkB requiredHeaders at hh
  simp only [List.all_cons, List.all_nil, Bool.and_eq_true] at hh
  have h1m : "Completed Date" ∈ rowKeys first := by simpa using hh.1
  have h2m : "Amount" ∈ rowKeys first := by simpa using hh.2.1
  have h3m : "Description" ∈ rowKeys first := by simpa using hh.2.2.1
  unfold convertRevolutToFreeAgent
  dsimp only
  have hf : (requiredHeaders .revolut).find?
      (fun hd => !(rowKeys first).contains hd) = none := by
    unfold requiredHeaders
    simp [List.find?, h1m, h2m, h3m]
  rw [hf, hm]

lemma normalize_error_of_mapRows (fmt : SourceFormat) (first : Row)
    (rest : List Row) (m : String)
    (hh : headersOkB fmt (first :: rest) = true)
    (hm : mapRows (rowFn fmt) 0 (first :: rest) = .error m) :
    normalize fmt (first :: rest) = .error (wrapMsg fmt m) := by
  cases fmt
  · exact starling_error_of_mapRows first rest m hh hm
  · exact revolut_error_of_mapRows first rest m hh hm

lemma starling_missing_header (first : Row) (rest : List Row)
    (hmiss : ∃ hd ∈ requiredHeaders .starling,
      (rowKeys first).contains hd = false) :
    ∃ hd ∈ requiredHeaders .starling,
      (rowKeys first).contains hd = false ∧
      convertStarlingToFreeAgent (first :: rest) =
        .error (wrapMsg .starling
          (missingColMsg .starling hd (rowKeys first))) := by
  by_cases h1 : (rowKeys first).contains "Amount (GBP)" = true
  · by_cases h2 : (rowKeys first).contains "Counter Party" = true
    · by_cases h3 : (rowKeys first).contains "Date" = true
      · exfalso
        obtain ⟨hd, hmem, hc⟩ := hmiss
        unfold requiredHeaders at hmem
        simp only [List.mem_cons, List.not_mem_nil, or_false] at hmem
        rcases hmem with rfl | rfl | rfl
        · rw [h1] at hc; cases hc
        · rw [h2] at hc; cases hc
        · rw [h3] at hc; cases hc
      · refine ⟨"Date", by unfold requiredHeaders; simp, by simpa using h3,
          ?_⟩
        unfold convertStarlingToFreeAgent
        dsimp only
        have h1m : "Amount (GBP)" ∈ rowKeys first := by simpa using h1
        have h2m : "Counter Party" ∈ rowKeys first := by simpa using h2
        rw [if_neg (by simp [h1m]), if_neg (by simp [h2m]),
          if_pos (by simpa using h3)]
    · refine ⟨"Counter Party", by unfold requiredHeaders; simp,
        by simpa using h2, ?_⟩
      have h1m : "Amount (GBP)" ∈ rowKeys first := by simpa using h1
      unfold convertStarlingToFreeAgent
      dsimp only
      rw [if_neg (by simp [h1m]), if_pos (by simpa using h2)]
  · refine ⟨"Amount (GBP)", by unfold requiredHeaders; simp,
      by simpa using h1, ?_⟩
    unfold convertStarlingToFreeAgent
    dsimp only
    rw [if_pos (by simpa using h1)]

lemma revolut_missing_header (first : Row) (rest : List Row)
    (hmiss : ∃ hd ∈ requiredHeaders .revolut,
      (rowKeys first).contains hd = false) :
    ∃ hd ∈ requiredHeaders .revolut,
      (rowKeys first).contains hd = false ∧
      convertRevolutToFreeAgent (first :: rest) =
        .error (wrapMsg .revolut
          (missingColMsg .revolut hd (rowKeys first))) := by
  by_cases h1 : (rowKeys first).contains "Completed Date" = true
  · by_cases h2 : (rowKeys first).contains "Amount" = true
    · by_cases h3 : (rowKeys first).contains "Description" = true
      · exfalso
        obtain ⟨hd, hmem, hc⟩ := hmiss
        unfold requiredHeaders at hmem
        simp only [List.mem_cons, List.not_mem_nil, or_false] at hmem
        rcases hmem with rfl | rfl | rfl
        · rw [h1] at hc; cases hc
        · rw [h2] at hc; cases hc
        · rw [h3] at hc; cases hc
      · refine ⟨"Description", by unfold requiredHeaders; simp,
          by simpa using h3, ?_⟩
        have h1m : "Completed Date" ∈ rowKeys first := by simpa using h1
        have h2m : "Amount" ∈ rowKeys first := by simpa using h2
        have h3n : ¬"Description" ∈ rowKeys first := by simpa using h3
        unfold convertRevolutToFreeAgent
        dsimp only
        rw [show (requiredHeaders .revolut).find?
            (fun hd => !(rowKeys first).contains hd) = some "Description" by
          unfold requiredHeaders
          simp [List.find?, h1m, h2m, h3n]]
    · refine ⟨"Amount", by unfold requiredHeaders; simp,
        by simpa using h2, ?_⟩
      have h1m : "Completed Date" ∈ rowKeys first := by simpa using h1
      have h2n : ¬"Amount" ∈ rowKeys first := by simpa using h2
      unfold convertRevolutToFreeAgent
      dsimp only
      rw [show (requiredHeaders .revolut).find?
          (fun hd => !(rowKeys first).contains hd) = some "Amount" by
        unfold requiredHeaders
        simp [List.find?, h1m, h2n]]
  · refine ⟨"Completed Date", by unfold requiredHeaders; simp,
      by simpa using h1, ?_⟩
    have h1n : ¬"Completed Date" ∈ rowKeys first := by simpa using h1
    unfold convertRevolutToFreeAgent
    dsimp only
    rw [show (requiredHeaders .revolut).find?
        (fun hd => !(rowKeys first).contains hd) = some "Completed Date" by
      unfold requiredHeaders
      simp [List.find?, h1n]]

/-! Re-parsing a rendered two-decimal amount gives back its exact value
(the round-trip at the heart of the idempotence property). -/

lemma isInfChars_cons (c : Char) (t : List Char) (hc : ¬c = 'I') :
    isInfChars (c :: t) = false := by
  unfold isInfChars
  rcases t with _ | ⟨x1, _ | ⟨x2, _ | ⟨x3, _ | ⟨x4, _ | ⟨x5, _ | ⟨x6, _ |
    ⟨x7, t⟩⟩⟩⟩⟩⟩⟩ <;> simp [hc]

lemma digitsVal_two (a b : Nat) (ha : a < 10) (hb : b < 10) :
    digitsVal [digitChar a, digitChar b] = a * 10 + b := by
  unfold digitsVal
  simp only [List.foldl_cons, List.foldl_nil, digitChar_toNat a ha,
    digitChar_toNat b hb]
  omega

lemma parseDec_render (n : Nat) :
    parseDec (natDigitsL (n / 100) ++
      ['.', digitChar (n % 100 / 10), digitChar (n % 100 % 10)]) =
      some (n, -2) := by
  have hsp : splitDigits (natDigitsL (n / 100) ++
      ['.', digitChar (n % 100 / 10), digitChar (n % 100 % 10)]) =
      (natDigitsL (n / 100),
        ['.', digitChar (n % 100 / 10), digitChar (n % 100 % 10)]) :=
    splitDigits_append _ _ (natDigitsL_all_digits _)
      (by intro c t hct; injection hct with hc ht; subst hc; rfl)
  have hsp2 : splitDigits [digitChar (n % 100 / 10),
      digitChar (n % 100 % 10)] =
      ([digitChar (n % 100 / 10), digitChar (n % 100 % 10)], []) := by
    have := splitDigits_append [digitChar (n % 100 / 10),
      digitChar (n % 100 % 10)] []
      (by
        intro c hc
        rcases List.mem_cons.mp hc with rfl | hc2
        · exact digitChar_isDigit _ (by omega)
        · rcases List.mem_singleton.mp hc2 with rfl
          exact digitChar_isDigit _ (by omega))
      (by intro c t hct; cases hct)
    simpa using this
  have hne : (natDigitsL (n / 100)).isEmpty = false := by
    obtain ⟨c0, t0, hds⟩ := List.exists_cons_of_ne_nil (natDigitsL_nonempty
      (n / 100))
    rw [hds]
    rfl
  simp only [parseDec, hsp, dotSplit, hsp2]
  simp only [if_pos rfl, hne]
  simp [parseExp]
  rw [digitsVal_natDigitsL, digitsVal_two _ _ (by omega) (by omega)]
  omega

lemma parseSigned_render (neg : Bool) (n : Nat) :
    parseSigned neg (natDigitsL (n / 100) ++
      ['.', digitChar (n % 100 / 10), digitChar (n % 100 % 10)]) =
      (if neg then
        (if n = 0 then JSNum.negZero else .finite ⟨true, n, -2⟩)
       else .finite ⟨false, n, -2⟩) := by
  obtain ⟨c0, t0, hds⟩ := List.exists_cons_of_ne_nil (natDigitsL_nonempty
    (n / 100))
  have hc0 : c0.isDigit = true := by
    refine natDigitsL_all_digits (n / 100) c0 ?_
    rw [hds]
    exact List.mem_cons_self c0 t0
  unfold parseSigned
  rw [show natDigitsL (n / 100) ++
      ['.', digitChar (n % 100 / 10), digitChar (n % 100 % 10)] =
      c0 :: (t0 ++ ['.', digitChar (n % 100 / 10),
        digitChar (n % 100 % 10)]) by rw [hds]; rfl]
  rw [isInfChars_cons c0 _ (ne_of_digit c0 'I' hc0 (by decide))]
  rw [if_neg (by simp)]
  rw [show c0 :: (t0 ++ ['.', digitChar (n % 100 / 10),
      digitChar (n % 100 % 10)]) = natDigitsL (n / 100) ++
      ['.', digitChar (n % 100 / 10), digitChar (n % 100 % 10)] by
    rw [hds]; rfl]
  rw [parseDec_render]
  cases neg with
  | false => simp
  | true =>
    by_cases hn : n = 0
    · subst hn
      simp
    · simp [hn]

lemma jsParseFloat_renderFixed (neg : Bool) (n : Nat) :
    jsParseFloat (renderFixed neg n) =
      (if neg then
        (if n = 0 then JSNum.negZero else .finite ⟨true, n, -2⟩)
       else .finite ⟨false, n, -2⟩) := by
  obtain ⟨c0, t0, hds⟩ := List.exists_cons_of_ne_nil (natDigitsL_nonempty
    (n / 100))
  have hc0 : c0.isDigit = true := by
    refine natDigitsL_all_digits (n / 100) c0 ?_
    rw [hds]
    exact List.mem_cons_self c0 t0
  cases neg with
  | false =>
    have hdata : (renderFixed false n).data =
        c0 :: (t0 ++ ['.', digitChar (n % 100 / 10),
          digitChar (n % 100 % 10)]) := by
      show ([] : List Char) ++ natDigitsL (n / 100) ++ _ = _
      rw [List.nil_append, hds]
      rfl
    unfold jsParseFloat
    rw [hdata]
    rw [List.dropWhile_cons_of_neg (by simp [isDigit_not_ws c0 hc0])]
    dsimp only
    rw [if_neg (ne_of_digit c0 '-' hc0 (by decide)),
      if_neg (ne_of_digit c0 '+' hc0 (by decide))]
    rw [show c0 :: (t0 ++ ['.', digitChar (n % 100 / 10),
        digitChar (n % 100 % 10)]) = natDigitsL (n / 100) ++
        ['.', digitChar (n % 100 / 10), digitChar (n % 100 % 10)] by
      rw [hds]; rfl]
    rw [parseSigned_render]
  | true =>
    have hdata : (renderFixed true n).data =
        '-' :: (natDigitsL (n / 100) ++ ['.', digitChar (n % 100 / 10),
          digitChar (n % 100 % 10)]) := by
      show ['-'] ++ natDigitsL (n / 100) ++ _ = _
      rfl
    unfold jsParseFloat
    rw [hdata]
    rw [List.dropWhile_cons_of_neg (by decide)]
    dsimp only
    rw [if_pos rfl]
    rw [parseSigned_render]

lemma scaled2_neg2 (b : Bool) (n : Nat) : Dec.scaled2 ⟨b, n, -2⟩ = n := by
  show (match (-2 : Int) + 2 with
    | .ofNat k => n * 10 ^ k
    | .negSucc m => (2 * n + 10 ^ (m + 1)) / (2 * 10 ^ (m + 1))) = n
  rw [show (-2 : Int) + 2 = Int.ofNat 0 by rfl]
  simp

lemma lt21_neg2 (b : Bool) (n : Nat) :
    Dec.lt21 ⟨b, n, -2⟩ = decide (n < 10 ^ 23) := by
  show (match (-2 : Int) with
    | .ofNat k => decide (n * 10 ^ k < 10 ^ 21)
    | .negSucc m => decide (n < 10 ^ (21 + (m + 1)))) =
    decide (n < 10 ^ 23)
  rw [show (-2 : Int) = Int.negSucc 1 by rfl]

lemma jsToFixed2_roundtrip (neg : Bool) (n : Nat) (hn : n < 10 ^ 23)
    (hneg : neg = true → 0 < n) :
    jsToFixed2 (jsParseFloat (renderFixed neg n)) = renderFixed neg n := by
  rw [jsParseFloat_renderFixed]
  cases neg with
  | false =>
    rw [if_neg (by simp)]
    simp only [jsToFixed2]
    rw [if_pos (by rw [lt21_neg2]; simpa using hn), scaled2_neg2]
    simp
  | true =>
    have hn0 : 0 < n := hneg rfl
    rw [if_pos rfl, if_neg (by omega)]
    simp only [jsToFixed2]
    rw [if_pos (by rw [lt21_neg2]; simpa using hn), scaled2_neg2]
    simp [hn0]

/-! Re-normalization through the identity format. -/

lemma identityRow_fix (i : Nat) (rec : FreeAgentTransaction) (neg : Bool)
    (n : Nat) (hd : datePatternB rec.Date = true)
    (hdesc : sanitize rec.Description = rec.Description)
    (ha : rec.Amount = renderFixed neg n)
    (hneg : neg = true → 0 < n) (hn : n < 10 ^ 23) :
    identityRow i rec = .ok rec := by
  unfold identityRow
  rw [if_neg (by simp [hd])]
  have hparse : ¬jsParseFloat rec.Amount = JSNum.nan := by
    rw [ha, jsParseFloat_renderFixed]
    cases neg <;> by_cases hn0 : n = 0 <;> simp [hn0]
  rw [if_neg hparse]
  have hfix : jsToFixed2 (jsParseFloat rec.Amount) = rec.Amount := by
    rw [ha, jsToFixed2_roundtrip neg n hn hneg]
  rw [hfix, hdesc]

lemma renormalize_go (recs : List FreeAgentTransaction) :
    ∀ s, (∀ rec ∈ recs, NormalizedRec rec) →
      (∀ rec ∈ recs, ¬rec.Amount = "-0.00") →
      mapRows identityRow s recs = .ok recs := by
  induction recs with
  | nil => intro s _ _; rfl
  | cons r rs ih =>
    intro s hnorm hnz
    unfold mapRows
    obtain ⟨hd, hdesc, neg, n, ha, hn⟩ := hnorm r (by simp)
    have hneg : neg = true → 0 < n := by
      intro he
      subst he
      by_contra h0
      have hn0 : n = 0 := by omega
      subst hn0
      exact hnz r (by simp) (by rw [ha]; rfl)
    rw [identityRow_fix s r neg n hd hdesc ha hneg hn]
    rw [ih (s + 1) (fun rec hrec => hnorm rec (by simp [hrec]))
      (fun rec hrec => hnz rec (by simp [hrec]))]

/-! NaN amounts fail with the non-numeric-amount message. -/

lemma rowFn_nan_error (fmt : SourceFormat) (i : Nat) (row : Row)
    (a : String) (hd : dateFieldValid fmt row = true)
    (ha : lookupField row (amountKey fmt) = some a)
    (hnan : jsParseFloat a = JSNum.nan) :
    rowFn fmt i row = .error (badAmtMsg fmt (i + 2) a) := by
  cases fmt with
  | starling =>
    unfold dateFieldValid at hd
    simp only [Bool.and_eq_true] at hd
    have ha' : lookupField row "Amount (GBP)" = some a := ha
    show starlingRow i row = _
    unfold starlingRow
    rw [if_neg (by simpa using hd.1), if_neg (by simp [ha']),
      if_neg (by simp [hd.2])]
    rw [show (lookupField row "Amount (GBP)").getD "" = a by rw [ha']; rfl]
    rw [if_pos hnan]
  | revolut =>
    unfold dateFieldValid at hd
    simp only [Bool.and_eq_true, Option.isSome_iff_exists] at hd
    obtain ⟨⟨y, m, d⟩, hsg⟩ := hd.2
    have ha' : lookupField row "Amount" = some a := ha
    show revolutRow i row = _
    unfold revolutRow
    rw [if_neg (by simpa using hd.1), if_neg (by simp [ha']), hsg]
    dsimp only
    rw [show (lookupField row "Amount").getD "" = a by rw [ha']; rfl]
    rw [if_pos hnan]

/-! The claims. -/

/-- C1 (as stated, refuted): the claim says every successfully returned
record has a fully digital dd/mm/yyyy date and an amount matching
`^-?\d+\.\d{2}$`.  The Starling converter accepts the amount string
`Infinity` (parseFloat yields Infinity, which is not NaN) and returns
`Amount = "Infinity"`, and the Revolut converter length-checks but never
digit-checks the date segments, returning `Date = "gh/ef/abcd"` for
Completed Date `abcd-ef-gh`; both violate the stated invariant. -/
theorem c1_counterexample :
    convertStarlingToFreeAgent
        [[("Date", "01/02/2024"), ("Amount (GBP)", "Infinity"),
          ("Counter Party", "x")]] =
      .ok [⟨"01/02/2024", "Infinity", "x"⟩] ∧
    amountOk "Infinity" = false ∧
    convertRevolutToFreeAgent
        [[("Completed Date", "abcd-ef-gh"), ("Amount", "1"),
          ("Description", "y")]] =
      .ok [⟨"gh/ef/abcd", "1.00", "y"⟩] ∧
    datePatternB "gh/ef/abcd" = false :=
  ⟨by decide, by decide, by decide, by decide⟩

/-- C1 (amended): every record of a successful conversion has a
ten-character date with slashes at positions 2 and 5 (fully digital for
Starling outputs), a description with no comma, quote or line break, and
an amount matching `^-?\d+\.\d{2}$` unless the amount parsed to
`±Infinity` or to a magnitude of at least `10^21` (then it is the JS
Infinity/exponential rendering). -/
theorem c1_normalized_invariant (fmt : SourceFormat) (data : List Row)
    (out : List FreeAgentTransaction) (h : normalize fmt data = .ok out) :
    ∀ rec ∈ out,
      dateShape rec.Date = true ∧
      (fmt = .starling → datePatternB rec.Date = true) ∧
      descOk rec.Description = true ∧
      (amountOk rec.Amount = true ∨ rec.Amount = "Infinity" ∨
        rec.Amount = "-Infinity" ∨
        ∃ d, rec.Amount = jsBigToString d ∧ d.lt21 = false) := by
  intro rec hrec
  have hmap := normalize_ok_mapRows fmt data out h
  obtain ⟨i, r, _, hok⟩ := mapRows_ok_mem _ data 0 out hmap rec hrec
  cases fmt with
  | starling =>
    have hs := starlingRow_ok i r rec hok
    refine ⟨dateShape_of_pattern _ hs.2.1, fun _ => hs.2.1, ?_, ?_⟩
    · rw [hs.2.2.2.2]
      exact descOk_sanitize _
    · rw [hs.2.2.1]
      exact jsToFixed2_shape _ hs.2.2.2.1
  | revolut =>
    obtain ⟨y, m, d, hseg, hdate, hamt, hnan, hdesc⟩ :=
      revolutRow_ok i r rec hok
    obtain ⟨hy, hm, hd⟩ := revolutDateSegs_lengths _ y m d hseg
    refine ⟨?_, fun hfmt => absurd hfmt (by decide), ?_, ?_⟩
    · rw [hdate]
      exact dateShape_build y m d hy hm hd
    · rw [hdesc]
      exact descOk_sanitize _
    · rw [hamt]
      exact jsToFixed2_shape _ hnan

/-- C1 witness: the amended invariant evaluated on a concrete Starling
conversion. -/
theorem c1_normalized_invariant_witness :
    dateShape "01/02/2024" = true ∧
    (SourceFormat.starling = .starling → datePatternB "01/02/2024" = true) ∧
    descOk "x" = true ∧
    (amountOk "1.00" = true ∨ ("1.00" : String) = "Infinity" ∨
      ("1.00" : String) = "-Infinity" ∨
      ∃ d, ("1.00" : String) = jsBigToString d ∧ d.lt21 = false) :=
  c1_normalized_invariant .starling
    [[("Date", "01/02/2024"), ("Amount (GBP)", "1"), ("Counter Party", "x")]]
    [⟨"01/02/2024", "1.00", "x"⟩] (by decide)
    ⟨"01/02/2024", "1.00", "x"⟩ (by decide)

/-- C2: a Starling row that passes validation maps to the input date
unchanged, the amount re-rendered through parseFloat/toFixed(2), and the
sanitized Counter-Party-plus-optional-Reference description. -/
theorem c2_starling_mapping (i : Nat) (row : Row)
    (rec : FreeAgentTransaction) (h : starlingRow i row = .ok rec) :
    rec.Date = (lookupField row "Date").getD "" ∧
    rec.Amount =
      jsToFixed2 (jsParseFloat ((lookupField row "Amount (GBP)").getD "")) ∧
    rec.Description = sanitize (starlingDesc row) := by
  have hs := starlingRow_ok i row rec h
  exact ⟨hs.1, hs.2.2.1, hs.2.2.2.2⟩

/-- C2 witness: the spec's concrete Starling example row. -/
theorem c2_starling_mapping_witness :
    starlingRow 0 [("Date", "01/02/2024"), ("Amount (GBP)", "-12.5"),
      ("Counter Party", "Acme, Ltd."), ("Reference", "INV\"1")] =
      .ok ⟨"01/02/2024", "-12.50", "Acme Ltd. - INV1"⟩ ∧
    (("01/02/2024" : String) =
      (lookupField [("Date", "01/02/2024"), ("Amount (GBP)", "-12.5"),
        ("Counter Party", "Acme, Ltd."), ("Reference", "INV\"1")]
        "Date").getD "" ∧
    ("-12.50" : String) =
      jsToFixed2 (jsParseFloat ((lookupField
        [("Date", "01/02/2024"), ("Amount (GBP)", "-12.5"),
          ("Counter Party", "Acme, Ltd."), ("Reference", "INV\"1")]
        "Amount (GBP)").getD "")) ∧
    ("Acme Ltd. - INV1" : String) =
      sanitize (starlingDesc [("Date", "01/02/2024"),
        ("Amount (GBP)", "-12.5"), ("Counter Party", "Acme, Ltd."),
        ("Reference", "INV\"1")])) := by
  have h : starlingRow 0 [("Date", "01/02/2024"), ("Amount (GBP)", "-12.5"),
      ("Counter Party", "Acme, Ltd."), ("Reference", "INV\"1")] =
      .ok ⟨"01/02/2024", "-12.50", "Acme Ltd. - INV1"⟩ := by decide
  exact ⟨h, c2_starling_mapping 0 _ _ h⟩

/-- C3: the Revolut date is the first space-delimited token of Completed
Date; when splitting it on `-` does not give segments of lengths 4/2/2
the row fails with the row-level date error, and otherwise the output
date is the reversed segments joined with slashes. -/
theorem c3_revolut_date (i : Nat) (row : Row) (cd : String)
    (hcd : lookupField row "Completed Date" = some cd) (hne : ¬cd = "")
    (hamt : ¬lookupField row "Amount" = none) :
    (revolutDateSegs cd = none →
      revolutRow i row = .error (badDateMsg .revolut (i + 2) cd)) ∧
    (∀ y m d rec, revolutDateSegs cd = some (y, m, d) →
      revolutRow i row = .ok rec →
      rec.Date = d ++ "/" ++ m ++ "/" ++ y) := by
  have hgd : (lookupField row "Completed Date").getD "" = cd := by
    rw [hcd]
    rfl
  constructor
  · intro hnone
    unfold revolutRow
    rw [if_neg (by simp [falsyStr, hcd, hne]),
      if_neg (by simp [Option.isNone_iff_eq_none, hamt]),
      hgd, hnone]
  · intro y m d rec hsome hok
    obtain ⟨y2, m2, d2, hseg2, hdate, _, _, _⟩ := revolutRow_ok i row rec hok
    rw [hgd, hsome] at hseg2
    injection hseg2 with h5
    simp only [Prod.mk.injEq] at h5
    obtain ⟨hy, hm2, hd2⟩ := h5
    subst hy
    subst hm2
    subst hd2
    exact hdate

/-- C3 witness: the spec's failing date `2024/02/01` and its concrete
Revolut example row. -/
theorem c3_revolut_date_witness :
    revolutRow 0 [("Completed Date", "2024/02/01"), ("Amount", "1"),
      ("Description", "z")] =
      .error (badDateMsg .revolut 2 "2024/02/01") ∧
    revolutRow 0 [("Completed Date", "2024-02-01 10:00:00"),
      ("Amount", "12.5"), ("Description", "Coffee\nShop")] =
      .ok ⟨"01/02/2024", "12.50", "Coffee Shop"⟩ ∧
    ("01/02/2024" : String) = "01" ++ "/" ++ "02" ++ "/" ++ "2024" := by
  have hok : revolutRow 0 [("Completed Date", "2024-02-01 10:00:00"),
      ("Amount", "12.5"), ("Description", "Coffee\nShop")] =
      .ok ⟨"01/02/2024", "12.50", "Coffee Shop"⟩ := by decide
  refine ⟨(c3_revolut_date 0 _ "2024/02/01" (by decide) (by decide)
    (by decide)).1 (by decide), hok, ?_⟩
  exact (c3_revolut_date 0 _ "2024-02-01 10:00:00" (by decide) (by decide)
    (by decide)).2 "2024" "02" "01" ⟨"01/02/2024", "12.50", "Coffee Shop"⟩
    (by decide) hok

/-- C4: a non-empty input whose first row lacks a required header fails
with the missing-column message naming a missing column and listing the
headers found, for both formats; no records are produced (the result is
an error). -/
theorem c4_missing_header (fmt : SourceFormat) (first : Row)
    (rest : List Row)
    (hmiss : ∃ hd ∈ requiredHeaders fmt,
      (rowKeys first).contains hd = false) :
    ∃ hd ∈ requiredHeaders fmt, (rowKeys first).contains hd = false ∧
      normalize fmt (first :: rest) =
        .error (wrapMsg fmt (missingColMsg fmt hd (rowKeys first))) := by
  cases fmt
  · exact starling_missing_header first rest hmiss
  · exact revolut_missing_header first rest hmiss

/-- C4 witness: a Starling input whose only header is `Datex`. -/
theorem c4_missing_header_witness :
    ∃ hd ∈ requiredHeaders .starling,
      (rowKeys [("Datex", "01/02/2024")]).contains hd = false ∧
      normalize .starling [[("Datex", "01/02/2024")]] =
        .error (wrapMsg .starling
          (missingColMsg .starling hd (rowKeys [("Datex", "01/02/2024")]))) :=
  c4_missing_header .starling [("Datex", "01/02/2024")] [] (by decide)

/-- C5: when the headers pass, every row before position `pre.length`
converts, and the row at that position fails, the whole conversion
returns the wrapped row error (no partial output, error as a value), and
the message is one of the four row templates at human row number
`pre.length + 2`, citing the raw date or amount value for the
malformed-date and non-numeric cases. -/
theorem c5_first_row_error_aborts (fmt : SourceFormat) (pre : List Row)
    (bad : Row) (rest : List Row) (m : String)
    (hh : headersOkB fmt (pre ++ bad :: rest) = true)
    (hpre : ∀ (i : Nat) (hi : i < pre.length),
      ∃ t, rowFn fmt i (pre.get ⟨i, hi⟩) = .ok t)
    (hbad : rowFn fmt pre.length bad = .error m) :
    normalize fmt (pre ++ bad :: rest) = .error (wrapMsg fmt m) ∧
    rowErrorShape fmt pre.length bad m := by
  have hmap := mapRows_error_at (rowFn fmt) pre 0 bad rest m
    (fun i hi => by simpa using hpre i hi) (by simpa using hbad)
  obtain ⟨first, rest2, hfr⟩ :
      ∃ first rest2, pre ++ bad :: rest = first :: rest2 := by
    cases pre with
    | nil => exact ⟨bad, rest, rfl⟩
    | cons p ps => exact ⟨p, ps ++ bad :: rest, rfl⟩
  refine ⟨?_, rowFn_error fmt pre.length bad m hbad⟩
  rw [hfr] at hh hmap ⊢
  exact normalize_error_of_mapRows fmt first rest2 m hh hmap

/-- C5 witness: a Starling batch whose second row has a malformed date:
the whole conversion fails with the wrapped row-2-indexed (= position 1,
reported as row 3) date message. -/
theorem c5_first_row_error_aborts_witness :
    normalize .starling
        [[("Date", "01/02/2024"), ("Amount (GBP)", "1"),
          ("Counter Party", "x")],
         [("Date", "bad"), ("Amount (GBP)", "1"), ("Counter Party", "x")],
         [("Date", "02/02/2024"), ("Amount (GBP)", "2"),
          ("Counter Party", "y")]] =
      .error (wrapMsg .starling (badDateMsg .starling 3 "bad")) ∧
    rowErrorShape .starling 1
      [("Date", "bad"), ("Amount (GBP)", "1"), ("Counter Party", "x")]
      (badDateMsg .starling 3 "bad") := by
  exact c5_first_row_error_aborts .starling
    [[("Date", "01/02/2024"), ("Amount (GBP)", "1"), ("Counter Party", "x")]]
    [("Date", "bad"), ("Amount (GBP)", "1"), ("Counter Party", "x")]
    [[("Date", "02/02/2024"), ("Amount (GBP)", "2"), ("Counter Party", "y")]]
    (badDateMsg .starling 3 "bad") (by decide)
    (by
      intro i hi
      simp only [List.length_cons, List.length_nil] at hi
      interval_cases i
      refine ⟨⟨"01/02/2024", "1.00", "x"⟩, ?_⟩
      show rowFn .starling 0 [("Date", "01/02/2024"), ("Amount (GBP)", "1"),
        ("Counter Party", "x")] = _
      decide)
    (by decide)

/-- C6: in both formats, a present amount whose string parses to NaN
(such as "abc") fails with the row-level non-numeric message citing the
row number and the raw value, provided the date validation before it
passes. -/
theorem c6_nonnumeric_amount (fmt : SourceFormat) (i : Nat) (row : Row)
    (a : String) (hd : dateFieldValid fmt row = true)
    (ha : lookupField row (amountKey fmt) = some a)
    (hnan : jsParseFloat a = JSNum.nan) :
    rowFn fmt i row = .error (badAmtMsg fmt (i + 2) a) :=
  rowFn_nan_error fmt i row a hd ha hnan

/-- C6 witness: amount "abc" in both formats. -/
theorem c6_nonnumeric_amount_witness :
    rowFn .starling 0 [("Date", "01/02/2024"), ("Amount (GBP)", "abc"),
      ("Counter Party", "x")] = .error (badAmtMsg .starling 2 "abc") ∧
    rowFn .revolut 0 [("Completed Date", "2024-02-01"), ("Amount", "abc"),
      ("Description", "y")] = .error (badAmtMsg .revolut 2 "abc") :=
  ⟨c6_nonnumeric_amount .starling 0 _ "abc" (by decide) (by decide)
      (by decide),
   c6_nonnumeric_amount .revolut 0 _ "abc" (by decide) (by decide)
      (by decide)⟩

/-- C7: the empty input yields the empty output (not an error) for both
formats. -/
theorem c7_empty_input :
    convertStarlingToFreeAgent [] = .ok [] ∧
    convertRevolutToFreeAgent [] = .ok [] :=
  ⟨rfl, rfl⟩

/-- C8 (as stated, refuted): re-normalizing an already-normalized record
is not always the identity.  The Starling converter turns amount
`-0.001` into the normalized record amount `-0.00`; re-reading `-0.00`
through parseFloat gives JS negative zero, which toFixed(2) renders as
`0.00`, so the amount changes.  Moreover a Revolut output date such as
`gh/ef/abcd` (which the converter produces) fails the identity format's
dd/mm/yyyy validation outright. -/
theorem c8_counterexample :
    convertStarlingToFreeAgent
        [[("Date", "01/02/2024"), ("Amount (GBP)", "-0.001"),
          ("Counter Party", "x")]] =
      .ok [⟨"01/02/2024", "-0.00", "x"⟩] ∧
    identityRow 0 ⟨"01/02/2024", "-0.00", "x"⟩ =
      .ok ⟨"01/02/2024", "0.00", "x"⟩ ∧
    ¬("0.00" : String) = "-0.00" ∧
    convertRevolutToFreeAgent
        [[("Completed Date", "abcd-ef-gh"), ("Amount", "1"),
          ("Description", "y")]] =
      .ok [⟨"gh/ef/abcd", "1.00", "y"⟩] ∧
    identityRow 0 ⟨"gh/ef/abcd", "1.00", "y"⟩ =
      .error (badDateMsg .starling 2 "gh/ef/abcd") :=
  ⟨by decide, by decide, by decide, by decide, by decide⟩

/-- C8 (amended): re-normalizing already-normalized records (dd/mm/yyyy
date, sanitization-fixed description, canonical two-decimal amount below
`10^21`) leaves every record unchanged provided no amount is the
negative-zero rendering `-0.00`. -/
theorem c8_renormalize_id (recs : List FreeAgentTransaction)
    (hnorm : ∀ rec ∈ recs, NormalizedRec rec)
    (hnz : ∀ rec ∈ recs, ¬rec.Amount = "-0.00") :
    renormalize recs = .ok recs :=
  renormalize_go recs 0 hnorm hnz

/-- C8 witness: re-normalizing a concrete normalized record set is the
identity. -/
theorem c8_renormalize_id_witness :
    renormalize [⟨"01/02/2024", "-12.50", "Acme Ltd. - INV1"⟩] =
      .ok [⟨"01/02/2024", "-12.50", "Acme Ltd. - INV1"⟩] := by
  refine c8_renormalize_id _ ?_ ?_
  · intro rec hrec
    rw [List.mem_singleton] at hrec
    subst hrec
    exact ⟨by decide, by decide, true, 1250, by decide, by norm_num⟩
  · intro rec hrec
    rw [List.mem_singleton] at hrec
    subst hrec
    decide

/-- C9: a successful conversion has exactly one output record per input
row, and the i-th output is the row conversion of the i-th input alone. -/
theorem c9_length_pointwise (fmt : SourceFormat) (data : List Row)
    (out : List FreeAgentTransaction) (h : normalize fmt data = .ok out) :
    out.length = data.length ∧
    ∀ (i : Nat) (h1 : i < data.length) (h2 : i < out.length),
      rowFn fmt i (data.get ⟨i, h1⟩) = .ok (out.get ⟨i, h2⟩) := by
  have hmap := normalize_ok_mapRows fmt data out h
  refine ⟨mapRows_ok_length _ data 0 out hmap, ?_⟩
  intro i h1 h2
  simpa using mapRows_ok_get _ data 0 out hmap i h1 h2

/-- C9 witness: a two-row Starling conversion, length and first row. -/
theorem c9_length_pointwise_witness :
    ([⟨"01/02/2024", "1.00", "x"⟩, ⟨"02/02/2024", "2.00", "y"⟩] :
      List FreeAgentTransaction).length =
      ([[("Date", "01/02/2024"), ("Amount (GBP)", "1"),
          ("Counter Party", "x")],
        [("Date", "02/02/2024"), ("Amount (GBP)", "2"),
          ("Counter Party", "y")]] : List Row).length ∧
    rowFn .starling 0 [("Date", "01/02/2024"), ("Amount (GBP)", "1"),
      ("Counter Party", "x")] = .ok ⟨"01/02/2024", "1.00", "x"⟩ := by
  have h := c9_length_pointwise .starling
    [[("Date", "01/02/2024"), ("Amount (GBP)", "1"), ("Counter Party", "x")],
     [("Date", "02/02/2024"), ("Amount (GBP)", "2"), ("Counter Party", "y")]]
    [⟨"01/02/2024", "1.00", "x"⟩, ⟨"02/02/2024", "2.00", "y"⟩] (by decide)
  exact ⟨h.1, h.2 0 (by decide) (by decide)⟩

/-- C10: an amount field present as the empty string is not a
missing-amount error (the missing check tests only undefined/null) but an
invalid-number error with raw value ""; a date field equal to the empty
string is a missing-date error (the date check tests falsiness).  Both
formats. -/
theorem c10_empty_amount_vs_date (fmt : SourceFormat) (i : Nat)
    (row : Row) :
    (lookupField row (amountKey fmt) = some "" →
      dateFieldValid fmt row = true →
      rowFn fmt i row = .error (badAmtMsg fmt (i + 2) "")) ∧
    (lookupField row (dateKey fmt) = some "" →
      rowFn fmt i row = .error (missingFieldMsg (dateKey fmt) (i + 2))) := by
  constructor
  · intro ha hd
    exact rowFn_nan_error fmt i row "" hd ha (by decide)
  · intro hdate
    cases fmt with
    | starling =>
      have hdate' : lookupField row "Date" = some "" := hdate
      show starlingRow i row = _
      unfold starlingRow
      rw [if_pos (by rw [hdate']; rfl)]
      rfl
    | revolut =>
      have hdate' : lookupField row "Completed Date" = some "" := hdate
      show revolutRow i row = _
      unfold revolutRow
      rw [if_pos (by rw [hdate']; rfl)]
      rfl

/-- C10 witness: empty amount on Starling, empty date on Revolut. -/
theorem c10_empty_amount_vs_date_witness :
    rowFn .starling 0 [("Date", "01/02/2024"), ("Amount (GBP)", ""),
      ("Counter Party", "x")] = .error (badAmtMsg .starling 2 "") ∧
    rowFn .revolut 0 [("Completed Date", ""), ("Amount", "1"),
      ("Description", "y")] =
      .error (missingFieldMsg "Completed Date" 2) :=
  ⟨(c10_empty_amount_vs_date .starling 0 _).1 (by decide) (by decide),
   (c10_empty_amount_vs_date .revolut 0 _).2 (by decide)⟩

end ConvertToFreeAgent
